import Mathlib

/-!
Verification of the KEGG Gene flat-file parser and serializer
(`Bio/KEGG/Gene/__init__.py`).

The parser is embedded shallowly: a line is a `List Char`, the Python
string operations used by the source (`[:3]`, `[:12]`, `[12:]`,
`.strip()`, `.strip(";")`, `.split()`, `.split("  ")`, `.split(": ")`)
are given explicit executable definitions, and the generator `parse`
becomes a fold over the list of input lines that threads the current
record, the current keyword, and the records yielded so far.  Python
runtime failures that the source can hit (unpacking a split of the
wrong arity, indexing `[-1]` into an empty list, reading the local
variable `keyword` before assignment, indexing `words[0]` of an empty
split) are modelled as values of `PyErr`.
-/

/-- A Python string, modelled as its list of characters. -/
abbrev Str := List Char

/-- Characters treated as whitespace by Python's `str.strip()` and
`str.split()` with no argument. -/
def isPySpace (c : Char) : Bool :=
  c = ' ' || c = '\t' || c = '\n' || c = '\r' || c = '\x0b' || c = '\x0c'

/-- Python `s.strip()`: remove leading and trailing whitespace. -/
def pyStrip (s : Str) : Str :=
  ((s.dropWhile isPySpace).reverse.dropWhile isPySpace).reverse

/-- Python `s.strip(";")`: remove leading and trailing `;` characters
(both ends, exactly as CPython does). -/
def pyStripSemi (s : Str) : Str :=
  ((s.dropWhile (fun c => c = ';')).reverse.dropWhile (fun c => c = ';')).reverse

/-- Python `s.split()` with no argument: split on runs of whitespace,
discarding empty fragments. -/
def pySplitWs (s : Str) : List Str :=
  (s.splitOnP isPySpace).filter (fun w => w ≠ [])

/-- Python `s.split(sep)` for a two-character separator `[a, b]`:
non-overlapping occurrences are found left to right and removed; the
fragments between them are returned.  The source only ever splits on
the two-character separators `"  "` and `": "`. -/
def split2 (a b : Char) : Str → List Str
  | [] => [[]]
  | [c] => [[c]]
  | c :: d :: rest =>
    if c = a ∧ d = b then
      [] :: split2 a b rest
    else
      match split2 a b (d :: rest) with
      | [] => [[c]]
      | w :: ws => (c :: w) :: ws

/-- The number of non-overlapping, left-to-right occurrences of the
two-character separator `[a, b]` in a string — the quantity that
determines how many fragments `split2` produces. -/
def count2 (a b : Char) : Str → Nat
  | [] => 0
  | [_] => 0
  | c :: d :: rest =>
    if c = a ∧ d = b then count2 a b rest + 1 else count2 a b (d :: rest)

/-- One KEGG Gene record, with the fields and zero values of the Python
class `Record`.  `organism` is initialised to the empty string in
Python and later overwritten with a 2-tuple; `none` models the initial
string state. -/
structure Record where
  entry : Str
  name : List Str
  definition : Str
  orthology : List (Str × Str)
  organism : Option (Str × Str)
  position : Str
  motif : List (Str × List Str)
  dblinks : List (Str × List Str)
deriving Repr, DecidableEq

/-- A fresh record, as built by `Record.__init__`. -/
def Record.empty : Record :=
  ⟨[], [], [], [], none, [], [], []⟩

/-- Python runtime errors reachable from `parse`. -/
inductive PyErr where
  /-- ValueError: unpacking a `split` result whose arity is not 2. -/
  | valueError : PyErr
  /-- IndexError: `record.dblinks[-1]` on an empty list, or `words[0]`
  of an empty split. -/
  | indexError : PyErr
  /-- UnboundLocalError (a NameError): the local variable `keyword` is
  read before any line has assigned it. -/
  | nameError : PyErr
deriving Repr, DecidableEq

/-- The record terminator token `"///"` compared against `line[:3]`. -/
def termTok : Str := "///".toList

/-- The blank 12-character label column compared against `line[:12]`. -/
def blank12 : Str := "            ".toList

/-- The recognized keyword `"ENTRY       "` (padded to 12 characters). -/
def kwENTRY : Str := "ENTRY       ".toList

/-- The recognized keyword `"NAME        "`. -/
def kwNAME : Str := "NAME        ".toList

/-- The recognized keyword `"DEFINITION  "`. -/
def kwDEFINITION : Str := "DEFINITION  ".toList

/-- The recognized keyword `"ORTHOLOGY   "`. -/
def kwORTHOLOGY : Str := "ORTHOLOGY   ".toList

/-- The recognized keyword `"ORGANISM    "`. -/
def kwORGANISM : Str := "ORGANISM    ".toList

/-- The recognized keyword `"POSITION    "`. -/
def kwPOSITION : Str := "POSITION    ".toList

/-- The recognized keyword `"MOTIF       "`. -/
def kwMOTIF : Str := "MOTIF       ".toList

/-- The recognized keyword `"DBLINKS     "`. -/
def kwDBLINKS : Str := "DBLINKS     ".toList

/-- Parser state between lines: the record under construction and the
value of the Python local variable `keyword` (`none` while it is still
unassigned). -/
structure PState where
  record : Record
  keyword : Option Str
deriving Repr, DecidableEq

/-- The keyword in effect for a (non-terminator) line: if the line's
first 12 characters are not all blank they become the new keyword,
otherwise the previous keyword is inherited (`if line[:12] != "            ":
keyword = line[:12]`). -/
def effKeyword (st : PState) (l : Str) : Option Str :=
  if l.take 12 ≠ blank12 then some (l.take 12) else st.keyword

/-- The keyword dispatch of `parse`: the `if keyword == "ENTRY       ":
... elif ...` chain of the source, acting on the stripped `data` of the
line and the current record. -/
def dispatch (kw : Str) (data : Str) (r : Record) : Except PyErr Record :=
  if kw = kwENTRY then
    match pySplitWs data with
    | [] => .error .indexError
    | w :: _ => .ok { r with entry := w }
  else if kw = kwNAME then
    .ok { r with name := r.name ++ [pyStripSemi data] }
  else if kw = kwDEFINITION then
    .ok { r with definition := data }
  else if kw = kwORTHOLOGY then
    match split2 ' ' ' ' data with
    | [a, b] => .ok { r with orthology := r.orthology ++ [(a, b)] }
    | _ => .error .valueError
  else if kw = kwORGANISM then
    match split2 ' ' ' ' data with
    | [a, b] => .ok { r with organism := some (a, b) }
    | _ => .error .valueError
  else if kw = kwPOSITION then
    .ok { r with position := data }
  else if kw = kwMOTIF then
    match split2 ':' ' ' data with
    | [k, v] => .ok { r with motif := r.motif ++ [(k, pySplitWs v)] }
    | _ => .error .valueError
  else if kw = kwDBLINKS then
    if ':' ∈ data then
      match split2 ':' ' ' data with
      | [k, v] => .ok { r with dblinks := r.dblinks ++ [(k, pySplitWs v)] }
      | _ => .error .valueError
    else
      match r.dblinks.getLast? with
      | none => .error .indexError
      | some (k, vs) =>
        .ok { r with dblinks := r.dblinks.dropLast ++ [(k, vs ++ pySplitWs data)] }
  else
    .ok r

/-- Processing of one non-terminator line: resolve the keyword (reading
the unassigned `keyword` raises), strip the data, dispatch. -/
def handleLine (st : PState) (l : Str) : Except PyErr PState :=
  match effKeyword st l with
  | none => .error .nameError
  | some kw =>
    match dispatch kw (pyStrip (l.drop 12)) st.record with
    | .error e => .error e
    | .ok r => .ok ⟨r, some kw⟩

/-- Processing of one line of `parse`: a line whose first three
characters are `///` yields the current record and resets it (the
keyword variable survives); any other line is field data. -/
def processLine (st : PState) (l : Str) : Except PyErr (PState × Option Record) :=
  if l.take 3 = termTok then
    .ok (⟨Record.empty, st.keyword⟩, some st.record)
  else
    match handleLine st l with
    | .error e => .error e
    | .ok st' => .ok (st', none)

/-- The body of `parse` run over a list of lines from a given state,
returning the final state and the records yielded along the way. -/
def runLines (st : PState) : List Str → Except PyErr (PState × List Record)
  | [] => .ok (st, [])
  | l :: ls =>
    match processLine st l with
    | .error e => .error e
    | .ok (st', out) =>
      match runLines st' ls with
      | .error e => .error e
      | .ok (st'', recs) => .ok (st'', out.toList ++ recs)

/-- The initial state of `parse`: a fresh record, `keyword` unassigned. -/
def initState : PState := ⟨Record.empty, none⟩

/-- The generator `parse`, as the list of records it yields on a finite
input (the record still under construction at end of input is
discarded, exactly as the Python generator simply returns). -/
def parse (lines : List Str) : Except PyErr (List Record) :=
  match runLines initState lines with
  | .error e => .error e
  | .ok (_, recs) => .ok recs

/-- A line-wrap break rule, one `(searchChar, replaceChar,
minLengthBeforeBreak, minLengthAfterBreak)` tuple of the source's
`name_wrap` / `id_wrap` rule lists. -/
structure WrapRule where
  search : Char
  subst : Str
  minBefore : Nat
  minAfter : Nat
deriving Repr, DecidableEq

/-- A wrap policy: the continuation indent, the join string, and the
ordered break rules — the shape of the source's `name_wrap` and
`id_wrap` values. -/
structure WrapPolicy where
  indent : Nat
  joinStr : Str
  rules : List WrapRule
deriving Repr, DecidableEq

/-- The source's `name_wrap` policy: break on spaces, fall back to
hyphens, marking the break with `$`. -/
def nameWrap : WrapPolicy :=
  ⟨0, [], [⟨' ', "$".toList, 1, 1⟩, ⟨'-', "$".toList, 1, 1⟩]⟩

/-- The source's `id_wrap(indent)` policy: break only on spaces. -/
def idWrap (indent : Nat) : WrapPolicy :=
  ⟨indent, [], [⟨' ', [], 1, 0⟩]⟩

/-- Modelled from the spec: the wrap engine's search for a break point
for one rule — the rightmost occurrence of the rule's search character
within the width limit that satisfies the rule's minimum-length
constraints.  The engine itself (`_wrap_kegg` of `Bio/KEGG/__init__.py`)
is not under `src/`. -/
def findBreakIdx (maxW : Nat) (line : Str) (rule : WrapRule) : Option Nat :=
  ((List.range maxW).filter
    (fun i => rule.minBefore ≤ i ∧ i + rule.minAfter < line.length ∧
      line.getD i ' ' = rule.search)).getLast?

/-- Modelled from the spec: the first rule (in policy order) offering a
valid break point wins. -/
def findBreak (pol : WrapPolicy) (maxW : Nat) (line : Str) : Option (Nat × WrapRule) :=
  pol.rules.findSome? (fun rule => (findBreakIdx maxW line rule).map (fun i => (i, rule)))

/-- Modelled from the spec: the line-wrap engine (`_wrap_kegg`, not
under `src/`).  A line short enough stands alone; otherwise the engine
splits at the chosen break point, substitutes the rule's replacement
for the search character there, left-pads the remainder with the
policy's indent and continues; with no valid break point it
force-breaks at the width boundary.  Fuel bounds the recursion; it is
sized so that it never runs out before the line is consumed. -/
def wrapKeggAux (pol : WrapPolicy) (maxW : Nat) : Nat → Str → List Str
  | 0, line => [line]
  | fuel + 1, line =>
    if line.length ≤ maxW then [line]
    else
      match findBreak pol maxW line with
      | some (i, rule) =>
        (line.take i ++ rule.subst) ::
          wrapKeggAux pol maxW fuel (List.replicate pol.indent ' ' ++ line.drop (i + 1))
      | none =>
        line.take maxW :: wrapKeggAux pol maxW fuel (List.replicate pol.indent ' ' ++ line.drop maxW)

/-- Modelled from the spec: `_wrap_kegg` joined back into one string
with newlines between the physical lines. -/
def wrapKegg (pol : WrapPolicy) (maxW : Nat) (line : Str) : Str :=
  List.intercalate ['\n'] (wrapKeggAux pol maxW (line.length + 1) line)

/-- Modelled from the spec: the width available to field data on one
80-column output line after the 12-column label (the spec fixes the
12-character keyword column; the numeric line width is the format's,
and no serializer claim depends on it). -/
def keggDataWidth : Nat := 68

/-- Left-justify a label into the 12-character keyword column. -/
def ljust12 (s : Str) : Str := s ++ List.replicate (12 - s.length) ' '

/-- Python `s.splitlines()` restricted to newline-separated text: the
empty string has no lines, and a trailing newline does not open an
empty final line. -/
def pySplitLines (s : Str) : List Str :=
  if s = [] then []
  else if s.getLast? = some '\n' then (List.splitOn '\n' s).dropLast
  else List.splitOn '\n' s

/-- Modelled from the spec: `_write_kegg` (`Bio/KEGG/__init__.py`, not
under `src/`): each physical line of the field's rendered values is
emitted behind the 12-character label column, with the label itself
only on the first physical line and blank padding on the rest. -/
def writeKegg (item : Str) (info : List Str) : Str :=
  match (info.map pySplitLines).flatten with
  | [] => []
  | l :: rest =>
    (ljust12 item ++ l ++ ['\n']) ++
      (rest.map (fun l2 => ljust12 [] ++ l2 ++ ['\n'])).flatten

/-- The `_entry` renderer of `Record`. -/
def Record.entryBlock (r : Record) : Str :=
  writeKegg "ENTRY".toList [r.entry]

/-- The `_name` renderer of `Record`: one name-wrapped block per name. -/
def Record.nameBlock (r : Record) : Str :=
  writeKegg "NAME".toList (r.name.map (wrapKegg nameWrap keggDataWidth))

/-- The `_definition` renderer of `Record` — it exists but is not part
of `__str__`'s concatenation. -/
def Record.definitionBlock (r : Record) : Str :=
  writeKegg "DEFINITION".toList [r.definition]

/-- The `_dblinks` renderer of `Record`: each pair rendered as
`"database: id1 id2 ..."` and id-wrapped with indent 9. -/
def Record.dblinksBlock (r : Record) : Str :=
  writeKegg "DBLINKS".toList
    ((r.dblinks.map (fun e => e.1 ++ ':' :: ' ' :: List.intercalate [' '] e.2)).map
      (wrapKegg (idWrap 9) keggDataWidth))

/-- The `__str__` serialization of `Record`: ENTRY, NAME and DBLINKS
blocks in that order, then the terminator with nothing after it. -/
def Record.toText (r : Record) : Str :=
  r.entryBlock ++ r.nameBlock ++ r.dblinksBlock ++ termTok

/-- Sanity check of the embedding against the spec's worked example: a
five-line record parses to the expected entry, name and dblinks. -/
theorem parse_sample_record :
    parse ["ENTRY       b1174             CDS       E.coli".toList,
                 "NAME        minE;".toList,
                 "DBLINKS     NCBI-GeneID: 12930923".toList,
                 "                987984".toList,
                 "///".toList] =
    .ok [⟨"b1174".toList, ["minE".toList], [], [], none, [], [],
          [("NCBI-GeneID".toList, ["12930923".toList, "987984".toList])]⟩] := by
  rfl

/-! ### Helper lemmas about the embedded operations -/

theorem split2_length (a b : Char) : ∀ s : Str, (split2 a b s).length = count2 a b s + 1
  | [] => by simp [split2, count2]
  | [c] => by simp [split2, count2]
  | c :: d :: rest => by
    by_cases h : c = a ∧ d = b
    · simp [split2, count2, h, split2_length a b rest]
    · have ih := split2_length a b (d :: rest)
      rcases hsp : split2 a b (d :: rest) with _ | ⟨w, ws⟩
      · rw [hsp] at ih; simp at ih
      · rw [hsp] at ih
        simp only [split2, count2, h, if_false, if_neg h, hsp]
        simpa using ih

theorem dispatch_name (data : Str) (r : Record) :
    dispatch kwNAME data r = .ok { r with name := r.name ++ [pyStripSemi data] } := by
  unfold dispatch
  rw [if_neg (by decide), if_pos rfl]

theorem dispatch_orthology (data : Str) (r : Record) :
    dispatch kwORTHOLOGY data r =
      match split2 ' ' ' ' data with
      | [x, y] => .ok { r with orthology := r.orthology ++ [(x, y)] }
      | _ => .error .valueError := by
  unfold dispatch
  rw [if_neg (by decide), if_neg (by decide), if_neg (by decide), if_pos rfl]

theorem dispatch_motif (data : Str) (r : Record) :
    dispatch kwMOTIF data r =
      match split2 ':' ' ' data with
      | [k, v] => .ok { r with motif := r.motif ++ [(k, pySplitWs v)] }
      | _ => .error .valueError := by
  unfold dispatch
  rw [if_neg (by decide), if_neg (by decide), if_neg (by decide), if_neg (by decide),
    if_neg (by decide), if_neg (by decide), if_pos rfl]

theorem dispatch_dblinks (data : Str) (r : Record) :
    dispatch kwDBLINKS data r =
      if ':' ∈ data then
        match split2 ':' ' ' data with
        | [k, v] => .ok { r with dblinks := r.dblinks ++ [(k, pySplitWs v)] }
        | _ => .error .valueError
      else
        match r.dblinks.getLast? with
        | none => .error .indexError
        | some (k, vs) =>
          .ok { r with dblinks := r.dblinks.dropLast ++ [(k, vs ++ pySplitWs data)] } := by
  unfold dispatch
  rw [if_neg (by decide), if_neg (by decide), if_neg (by decide), if_neg (by decide),
    if_neg (by decide), if_neg (by decide), if_neg (by decide), if_pos rfl]

theorem dispatch_unrecognized (kw data : Str) (r : Record) (h : kw.length ≠ 12) :
    dispatch kw data r = .ok r := by
  unfold dispatch
  rw [if_neg (by rintro rfl; exact h (by decide)), if_neg (by rintro rfl; exact h (by decide)),
    if_neg (by rintro rfl; exact h (by decide)), if_neg (by rintro rfl; exact h (by decide)),
    if_neg (by rintro rfl; exact h (by decide)), if_neg (by rintro rfl; exact h (by decide)),
    if_neg (by rintro rfl; exact h (by decide)), if_neg (by rintro rfl; exact h (by decide))]

theorem processLine_term (st : PState) (l : Str) (h : l.take 3 = termTok) :
    processLine st l = .ok (⟨Record.empty, st.keyword⟩, some st.record) := by
  simp [processLine, h]

theorem processLine_nonterm (st : PState) (l : Str) (h : l.take 3 ≠ termTok) :
    processLine st l =
      match handleLine st l with
      | .error e => .error e
      | .ok st' => .ok (st', none) := by
  simp [processLine, h]

theorem processLine_ok_out (st st' : PState) (l : Str) (out : Option Record)
    (h : l.take 3 ≠ termTok) (hp : processLine st l = .ok (st', out)) : out = none := by
  rw [processLine_nonterm st l h] at hp
  cases hh : handleLine st l with
  | error e => rw [hh] at hp; cases hp
  | ok st2 => rw [hh] at hp; cases hp; rfl

theorem take3_eq_of_take12 (l : Str) (h : l.take 12 = blank12) : l.take 3 = "   ".toList := by
  have h3 : l.take 3 = (l.take 12).take 3 := by
    rw [List.take_take]
    norm_num
  rw [h3, h]
  rfl

theorem runLines_append (st : PState) (xs ys : List Str) :
    runLines st (xs ++ ys) =
      match runLines st xs with
      | .error e => .error e
      | .ok (st1, r1) =>
        match runLines st1 ys with
        | .error e => .error e
        | .ok (st2, r2) => .ok (st2, r1 ++ r2) := by
  induction xs generalizing st with
  | nil =>
    simp only [List.nil_append, runLines]
    cases h : runLines st ys with
    | error e => rfl
    | ok q => obtain ⟨st2, r2⟩ := q; simp
  | cons l ls ih =>
    simp only [List.cons_append, runLines]
    cases hp : processLine st l with
    | error e => rfl
    | ok p =>
      obtain ⟨st1, out⟩ := p
      dsimp only
      rw [show ls.append ys = ls ++ ys from rfl, ih st1]
      cases h1 : runLines st1 ls with
      | error e => rfl
      | ok q =>
        obtain ⟨st2, r2⟩ := q
        dsimp only
        cases h2 : runLines st2 ys with
        | error e => rfl
        | ok w => obtain ⟨st3, r3⟩ := w; simp

theorem runLines_no_term (st st' : PState) (ls : List Str) (recs : List Record)
    (hter : ∀ l ∈ ls, l.take 3 ≠ termTok)
    (h : runLines st ls = .ok (st', recs)) : recs = [] := by
  induction ls generalizing st recs with
  | nil => simp only [runLines] at h; cases h; rfl
  | cons l ls ih =>
    simp only [runLines] at h
    cases hp : processLine st l with
    | error e => rw [hp] at h; cases h
    | ok p =>
      obtain ⟨st1, out⟩ := p
      rw [hp] at h
      dsimp only at h
      cases h1 : runLines st1 ls with
      | error e => rw [h1] at h; cases h
      | ok q =>
        obtain ⟨st2, r2⟩ := q
        rw [h1] at h
        dsimp only at h
        cases h
        have hout : out = none :=
          processLine_ok_out st st1 l out (hter l (List.mem_cons_self l ls)) hp
        have hr2 : r2 = [] := ih st1 r2 (fun x hx => hter x (List.mem_cons_of_mem l hx)) h1
        rw [hout, hr2]
        rfl

theorem runLines_length (st st' : PState) (ls : List Str) (recs : List Record)
    (h : runLines st ls = .ok (st', recs)) :
    recs.length = ls.countP (fun l => decide (l.take 3 = termTok)) := by
  induction ls generalizing st recs with
  | nil => simp only [runLines] at h; cases h; rfl
  | cons l ls ih =>
    simp only [runLines] at h
    cases hp : processLine st l with
    | error e => rw [hp] at h; cases h
    | ok p =>
      obtain ⟨st1, out⟩ := p
      rw [hp] at h
      dsimp only at h
      cases h1 : runLines st1 ls with
      | error e => rw [h1] at h; cases h
      | ok q =>
        obtain ⟨st2, r2⟩ := q
        rw [h1] at h
        dsimp only at h
        cases h
        by_cases ht : l.take 3 = termTok
        · rw [processLine_term st l ht] at hp
          cases hp
          rw [List.countP_cons_of_pos _ _ (by simpa using ht)]
          simpa using ih _ r2 h1
        · have hout : out = none := processLine_ok_out st st1 l out ht hp
          rw [List.countP_cons_of_neg _ _ (by simpa using ht)]
          rw [hout]
          simpa using ih st1 r2 h1

/-! ### Claim theorems -/

/-- C5: for every finite input on which `parse` completes without
raising, the number of records yielded equals the number of lines whose
first 3 characters are `///`; in particular a terminator immediately
following a previous terminator yields a fresh all-zero record (not an
error), and content after `///` on a terminator line contributes no
field data. -/
theorem record_count_eq_terminator_count :
    (∀ (lines : List Str) (recs : List Record), parse lines = .ok recs →
      recs.length = lines.countP (fun l => decide (l.take 3 = termTok)))
    ∧ parse ["/// trailing content ignored".toList, "///".toList] =
        .ok [Record.empty, Record.empty] := by
  constructor
  · intro lines recs h
    unfold parse at h
    cases hr : runLines initState lines with
    | error e => rw [hr] at h; cases h
    | ok p =>
      obtain ⟨st2, recs2⟩ := p
      rw [hr] at h
      cases h
      exact runLines_length initState st2 lines _ hr
  · rfl

/-- Witness for C5 at a concrete three-line input with one terminator. -/
theorem record_count_eq_terminator_count_witness :
    parse ["ENTRY       b1174".toList, "NAME        minE;".toList, "///".toList] =
      .ok [⟨"b1174".toList, ["minE".toList], [], [], none, [], [], []⟩]
    ∧ ([⟨"b1174".toList, ["minE".toList], [], [], none, [], [], []⟩] : List Record).length =
        (["ENTRY       b1174".toList, "NAME        minE;".toList, "///".toList]).countP
          (fun l => decide (l.take 3 = termTok)) :=
  ⟨by rfl, record_count_eq_terminator_count.1 _ _ (by rfl)⟩

/-- C6: when the input ends without a final terminator, the lines seen
after the last terminator are discarded: the records yielded are
exactly those yielded on the input truncated at the last terminator. -/
theorem trailing_partial_record_dropped :
    ∀ (pre post : List Str) (recs : List Record),
      (∀ l ∈ post, l.take 3 ≠ termTok) →
      parse (pre ++ post) = .ok recs → parse pre = .ok recs := by
  intro pre post recs hter h
  unfold parse at h ⊢
  rw [runLines_append initState pre post] at h
  cases hpre : runLines initState pre with
  | error e => rw [hpre] at h; cases h
  | ok p =>
    obtain ⟨st1, r1⟩ := p
    rw [hpre] at h
    dsimp only at h
    cases hpost : runLines st1 post with
    | error e => rw [hpost] at h; cases h
    | ok q =>
      obtain ⟨st2, r2⟩ := q
      rw [hpost] at h
      dsimp only at h
      cases h
      have hr2 : r2 = [] := runLines_no_term st1 st2 post r2 hter hpost
      rw [hr2]
      simp

/-- Witness for C6: a trailing ENTRY line with no terminator after it
changes nothing about the yielded records. -/
theorem trailing_partial_record_dropped_witness :
    parse ["NAME        minE;".toList, "///".toList] =
      .ok [⟨[], ["minE".toList], [], [], none, [], [], []⟩] :=
  trailing_partial_record_dropped
    ["NAME        minE;".toList, "///".toList]
    ["ENTRY       b9999".toList] _ (by decide) (by rfl)

/-- C9: if the first line of the input has its first 12 characters all
blank, `parse` fails on that line with the undefined-variable error
(the Python local `keyword` has never been assigned); the line is not
silently ignored. -/
theorem leading_continuation_unbound_keyword :
    ∀ (l : Str) (rest : List Str), l.take 12 = blank12 →
      parse (l :: rest) = .error .nameError := by
  intro l rest h
  have h3 : l.take 3 = "   ".toList := take3_eq_of_take12 l h
  have hterm : l.take 3 ≠ termTok := by rw [h3]; decide
  have hh : handleLine initState l = .error .nameError := by
    unfold handleLine effKeyword
    rw [h]
    simp [initState]
  have hp : processLine initState l = .error .nameError := by
    rw [processLine_nonterm initState l hterm, hh]
  unfold parse runLines
  rw [hp]

/-- Witness for C9 at a concrete blank-label first line. -/
theorem leading_continuation_unbound_keyword_witness :
    parse ["            NCBI-GeneID: 12930923".toList] = .error .nameError :=
  leading_continuation_unbound_keyword "            NCBI-GeneID: 12930923".toList [] (by rfl)

/-- C10: a non-terminator line shorter than 12 characters becomes the
new current keyword in its entirety; being unrecognized it touches no
field and yields nothing; and while such an unrecognized short keyword
is current, every blank-label continuation line leaves the state
entirely unchanged. -/
theorem short_line_keyword_behavior :
    (∀ (st : PState) (l : Str), l.length < 12 → l.take 3 ≠ termTok →
      processLine st l = .ok (⟨st.record, some l⟩, none))
    ∧ (∀ (st : PState) (l k : Str), l.take 12 = blank12 →
      st.keyword = some k → k.length < 12 → processLine st l = .ok (st, none)) := by
  constructor
  · intro st l hlen hterm
    have htake : l.take 12 = l := List.take_of_length_le (by omega)
    have hne : l.take 12 ≠ blank12 := by
      rw [htake]
      intro he
      have : l.length = 12 := by rw [he]; rfl
      omega
    have hkw : effKeyword st l = some l := by
      unfold effKeyword
      rw [if_pos hne, htake]
    have hd : dispatch l (pyStrip (l.drop 12)) st.record = .ok st.record :=
      dispatch_unrecognized l _ st.record (by omega)
    have hh : handleLine st l = .ok ⟨st.record, some l⟩ := by
      unfold handleLine
      rw [hkw]
      dsimp only
      rw [hd]
    rw [processLine_nonterm st l hterm, hh]
  · intro st l k h12 hk hlen
    obtain ⟨r, kw⟩ := st
    have hterm : l.take 3 ≠ termTok := by
      rw [take3_eq_of_take12 l h12]
      decide
    have hkw : effKeyword ⟨r, kw⟩ l = some k := by
      unfold effKeyword
      rw [h12]
      simpa using hk
    have hd : dispatch k (pyStrip (l.drop 12)) r = .ok r :=
      dispatch_unrecognized k _ r (by omega)
    have hh : handleLine ⟨r, kw⟩ l = .ok ⟨r, some k⟩ := by
      unfold handleLine
      rw [hkw]
      dsimp only
      rw [hd]
    rw [processLine_nonterm _ l hterm, hh]
    simp only at hk
    rw [hk]

/-- Witness for C10: the two-character line `hi` becomes the keyword,
then a blank-label continuation under it is ignored. -/
theorem short_line_keyword_behavior_witness :
    processLine initState "hi".toList = .ok (⟨Record.empty, some "hi".toList⟩, none)
    ∧ processLine ⟨Record.empty, some "hi".toList⟩ "            some data".toList =
        .ok (⟨Record.empty, some "hi".toList⟩, none) :=
  ⟨short_line_keyword_behavior.1 initState "hi".toList (by decide) (by decide),
   short_line_keyword_behavior.2 ⟨Record.empty, some "hi".toList⟩
     "            some data".toList "hi".toList (by rfl) rfl (by decide)⟩

/-- C1 (counterexample): on a DBLINKS continuation line (no colon) with
no DBLINKS pair yet in the record, `parse` fails with the out-of-bounds
index access of `record.dblinks[-1]` — there is no dedicated
continuation-without-antecedent error in the code, contradicting the
claim that an `EmptyReferenceError` rather than an index access failure
is raised. -/
theorem dblinks_no_antecedent_counterexample :
    parse ["DBLINKS     12930923".toList] = .error .indexError := by rfl

/-- C1 (amended): a DBLINKS continuation line encountered before any
DBLINKS pair exists makes `parse` fail with the IndexError of
`record.dblinks[-1]` on an empty list. -/
theorem dblinks_no_antecedent_index_error :
    ∀ (d : Str) (rest : List Str), ':' ∉ pyStrip d →
      parse (("DBLINKS     ".toList ++ d) :: rest) = .error .indexError := by
  intro d rest hc
  have h3 : ("DBLINKS     ".toList ++ d).take 3 = "DBL".toList := rfl
  have hterm : ("DBLINKS     ".toList ++ d).take 3 ≠ termTok := by rw [h3]; decide
  have h12 : ("DBLINKS     ".toList ++ d).take 12 = kwDBLINKS := rfl
  have hdrop : ("DBLINKS     ".toList ++ d).drop 12 = d := rfl
  have hkw : effKeyword initState ("DBLINKS     ".toList ++ d) = some kwDBLINKS := by
    unfold effKeyword
    rw [h12]
    rw [if_pos (by decide)]
  have hd : dispatch kwDBLINKS (pyStrip d) Record.empty = .error .indexError := by
    rw [dispatch_dblinks]
    rw [if_neg hc]
    rfl
  have hh : handleLine initState ("DBLINKS     ".toList ++ d) = .error .indexError := by
    unfold handleLine
    rw [hkw]
    dsimp only
    rw [hdrop]
    rw [show initState.record = Record.empty from rfl, hd]
  have hp : processLine initState ("DBLINKS     ".toList ++ d) = .error .indexError := by
    rw [processLine_nonterm initState _ hterm, hh]
  unfold parse runLines
  rw [hp]

/-- Witness for C1 (amended) at a concrete continuation line. -/
theorem dblinks_no_antecedent_index_error_witness :
    parse [("DBLINKS     ".toList ++ "987984".toList)] = .error .indexError :=
  dblinks_no_antecedent_index_error "987984".toList [] (by decide)

/-- C2 (counterexample): an ORTHOLOGY line whose data contains two
double-space separators raises even though a double-space separator is
present, contradicting the claim that the parse failure occurs if and
only if no double-space separator exists. -/
theorem orthology_double_space_counterexample :
    count2 ' ' ' ' (pyStrip ("ORTHOLOGY   K00001  desc  extra".toList.drop 12)) = 2
    ∧ parse ["ORTHOLOGY   K00001  desc  extra".toList] = .error .valueError :=
  ⟨by decide, by rfl⟩

/-- C2 (amended): an ORTHOLOGY line succeeds, appending the two
fragments of the double-space split as an (id, name) pair, exactly when
the split on `"  "` yields two fragments; it raises a ValueError
whenever the number of non-overlapping double-space occurrences in the
data differs from one (zero or several). -/
theorem orthology_double_space_split :
    ∀ (st : PState) (l : Str), l.take 3 ≠ termTok → effKeyword st l = some kwORTHOLOGY →
      ((∀ x y, split2 ' ' ' ' (pyStrip (l.drop 12)) = [x, y] →
        processLine st l =
          .ok (⟨{ st.record with orthology := st.record.orthology ++ [(x, y)] },
            some kwORTHOLOGY⟩, none))
      ∧ (count2 ' ' ' ' (pyStrip (l.drop 12)) ≠ 1 → processLine st l = .error .valueError)) := by
  intro st l hterm hkw
  constructor
  · intro x y hsp
    have hh : handleLine st l =
        .ok ⟨{ st.record with orthology := st.record.orthology ++ [(x, y)] },
          some kwORTHOLOGY⟩ := by
      unfold handleLine
      rw [hkw]
      dsimp only
      rw [dispatch_orthology, hsp]
    rw [processLine_nonterm st l hterm, hh]
  · intro hcount
    have hlen := split2_length ' ' ' ' (pyStrip (l.drop 12))
    have hh : handleLine st l = .error .valueError := by
      unfold handleLine
      rw [hkw]
      dsimp only
      rw [dispatch_orthology]
      rcases hsp : split2 ' ' ' ' (pyStrip (l.drop 12)) with _ | ⟨x, _ | ⟨y, _ | ⟨z, t⟩⟩⟩
      · rfl
      · rfl
      · rw [hsp] at hlen
        simp at hlen
        omega
      · rfl
    rw [processLine_nonterm st l hterm, hh]

/-- Witness for C2 (amended) at the spec's example ORTHOLOGY line. -/
theorem orthology_double_space_split_witness :
    processLine initState "ORTHOLOGY   K00001  description text".toList =
      .ok (⟨⟨[], [], [], [("K00001".toList, "description text".toList)], none, [], [], []⟩,
        some kwORTHOLOGY⟩, none) :=
  (orthology_double_space_split initState "ORTHOLOGY   K00001  description text".toList
    (by decide) (by rfl)).1 "K00001".toList "description text".toList (by rfl)

/-- C3 (counterexample): a NAME line whose data starts with a semicolon
has that leading semicolon removed as well, contradicting the claim
that text at the start of the data is kept verbatim. -/
theorem name_semicolon_counterexample :
    parse ["NAME        ;minE;".toList, "///".toList] =
      .ok [⟨[], ["minE".toList], [], [], none, [], [], []⟩]
    ∧ "minE".toList ≠ ";minE".toList :=
  ⟨by rfl, by decide⟩

/-- C3 (amended): for every NAME line the parser appends the line's
data with both leading and trailing semicolon characters removed
(interior text kept verbatim), at the end of the name list, so
insertion order of NAME lines is preserved. -/
theorem name_semicolon_strip :
    ∀ (st : PState) (l : Str), l.take 3 ≠ termTok → effKeyword st l = some kwNAME →
      processLine st l =
        .ok (⟨{ st.record with
          name := st.record.name ++ [pyStripSemi (pyStrip (l.drop 12))] },
          some kwNAME⟩, none) := by
  intro st l hterm hkw
  have hh : handleLine st l =
      .ok ⟨{ st.record with name := st.record.name ++ [pyStripSemi (pyStrip (l.drop 12))] },
        some kwNAME⟩ := by
    unfold handleLine
    rw [hkw]
    dsimp only
    rw [dispatch_name]
  rw [processLine_nonterm st l hterm, hh]

/-- Witness for C3 (amended) at a concrete NAME line. -/
theorem name_semicolon_strip_witness :
    processLine initState "NAME        minE;".toList =
      .ok (⟨⟨[], ["minE".toList], [], [], none, [], [], []⟩, some kwNAME⟩, none) :=
  name_semicolon_strip initState "NAME        minE;".toList (by decide) (by rfl)

/-- C4 (counterexample): with one DBLINKS pair already present, a
DBLINKS line whose data contains a colon but no `": "` raises a
ValueError instead of appending a pair, contradicting the claim that
any colon-bearing DBLINKS line appends a new pair. -/
theorem dblinks_colon_counterexample :
    ':' ∈ pyStrip ("DBLINKS     NCBI:123".toList.drop 12)
    ∧ parse ["DBLINKS     NCBI-GeneID: 12930923".toList, "DBLINKS     NCBI:123".toList] =
        .error .valueError :=
  ⟨by decide, by rfl⟩

/-- C4 (amended): for a DBLINKS line processed while at least one
DBLINKS pair exists: if the data contains a colon and the split on
`": "` yields exactly two fragments, a new (key, whitespace-split ids)
pair is appended; if the data contains a colon but that split does not
yield exactly two fragments, a ValueError is raised; if the data
contains no colon, the ids of the last pair are extended in place and
no new pair is created. -/
theorem dblinks_with_antecedent :
    ∀ (st : PState) (l : Str), l.take 3 ≠ termTok → effKeyword st l = some kwDBLINKS →
      st.record.dblinks ≠ [] →
      ((∀ k v, ':' ∈ pyStrip (l.drop 12) → split2 ':' ' ' (pyStrip (l.drop 12)) = [k, v] →
        processLine st l =
          .ok (⟨{ st.record with dblinks := st.record.dblinks ++ [(k, pySplitWs v)] },
            some kwDBLINKS⟩, none))
      ∧ (':' ∈ pyStrip (l.drop 12) → (split2 ':' ' ' (pyStrip (l.drop 12))).length ≠ 2 →
        processLine st l = .error .valueError)
      ∧ (∀ k vs, ':' ∉ pyStrip (l.drop 12) → st.record.dblinks.getLast? = some (k, vs) →
        processLine st l =
          .ok (⟨{ st.record with
            dblinks := st.record.dblinks.dropLast ++ [(k, vs ++ pySplitWs (pyStrip (l.drop 12)))] },
            some kwDBLINKS⟩, none))) := by
  intro st l hterm hkw _hne
  refine ⟨?_, ?_, ?_⟩
  · intro k v hcolon hsp
    have hh : handleLine st l =
        .ok ⟨{ st.record with dblinks := st.record.dblinks ++ [(k, pySplitWs v)] },
          some kwDBLINKS⟩ := by
      unfold handleLine
      rw [hkw]
      dsimp only
      rw [dispatch_dblinks, if_pos hcolon, hsp]
    rw [processLine_nonterm st l hterm, hh]
  · intro hcolon hlen2
    have hh : handleLine st l = .error .valueError := by
      unfold handleLine
      rw [hkw]
      dsimp only
      rw [dispatch_dblinks, if_pos hcolon]
      rcases hsp : split2 ':' ' ' (pyStrip (l.drop 12)) with _ | ⟨x, _ | ⟨y, _ | ⟨z, t⟩⟩⟩
      · rfl
      · rfl
      · rw [hsp] at hlen2
        simp at hlen2
      · rfl
    rw [processLine_nonterm st l hterm, hh]
  · intro k vs hcolon hlast
    have hh : handleLine st l =
        .ok ⟨{ st.record with
          dblinks := st.record.dblinks.dropLast ++ [(k, vs ++ pySplitWs (pyStrip (l.drop 12)))] },
          some kwDBLINKS⟩ := by
      unfold handleLine
      rw [hkw]
      dsimp only
      rw [dispatch_dblinks, if_neg hcolon, hlast]
    rw [processLine_nonterm st l hterm, hh]

/-- Witness for C4 (amended): from a state holding one DBLINKS pair, a
colon line appends, a colon-without-blank line raises, and a
continuation line extends the last pair. -/
theorem dblinks_with_antecedent_witness :
    processLine ⟨⟨[], [], [], [], none, [], [], [("PDB".toList, ["1EV0".toList])]⟩, some kwDBLINKS⟩
        "DBLINKS     NCBI-GeneID: 12930923".toList =
      .ok (⟨⟨[], [], [], [], none, [], [],
        [("PDB".toList, ["1EV0".toList]), ("NCBI-GeneID".toList, ["12930923".toList])]⟩,
        some kwDBLINKS⟩, none)
    ∧ processLine ⟨⟨[], [], [], [], none, [], [], [("PDB".toList, ["1EV0".toList])]⟩, some kwDBLINKS⟩
        "DBLINKS     NCBI:123".toList = .error .valueError
    ∧ processLine ⟨⟨[], [], [], [], none, [], [], [("PDB".toList, ["1EV0".toList])]⟩, some kwDBLINKS⟩
        "            987984".toList =
      .ok (⟨⟨[], [], [], [], none, [], [],
        [("PDB".toList, ["1EV0".toList, "987984".toList])]⟩, some kwDBLINKS⟩, none) :=
  ⟨(dblinks_with_antecedent _ "DBLINKS     NCBI-GeneID: 12930923".toList
      (by decide) (by rfl) (by decide)).1 "NCBI-GeneID".toList "12930923".toList
      (by decide) (by rfl),
   (dblinks_with_antecedent _ "DBLINKS     NCBI:123".toList
      (by decide) (by rfl) (by decide)).2.1 (by decide) (by decide),
   (dblinks_with_antecedent _ "            987984".toList
      (by decide) (by rfl) (by decide)).2.2 "PDB".toList ["1EV0".toList]
      (by decide) (by rfl)⟩

/-- C8: a MOTIF line whose data contains exactly one `": "` separator
always appends a brand-new (key, whitespace-split values) pair to
motif; two consecutive such lines produce two separate pairs, never
merged, even with identical keys. -/
theorem motif_appends_new_pair :
    (∀ (st : PState) (l : Str), l.take 3 ≠ termTok → effKeyword st l = some kwMOTIF →
      count2 ':' ' ' (pyStrip (l.drop 12)) = 1 →
      ∃ k v, split2 ':' ' ' (pyStrip (l.drop 12)) = [k, v] ∧
        processLine st l =
          .ok (⟨{ st.record with motif := st.record.motif ++ [(k, pySplitWs v)] },
            some kwMOTIF⟩, none))
    ∧ parse ["MOTIF       Pfam: MinE".toList, "MOTIF       Pfam: SecD1".toList, "///".toList] =
        .ok [⟨[], [], [], [], none, [],
          [("Pfam".toList, ["MinE".toList]), ("Pfam".toList, ["SecD1".toList])], []⟩] := by
  constructor
  · intro st l hterm hkw hcount
    have hlen := split2_length ':' ' ' (pyStrip (l.drop 12))
    rw [hcount] at hlen
    rcases hsp : split2 ':' ' ' (pyStrip (l.drop 12)) with _ | ⟨x, _ | ⟨y, _ | ⟨z, t⟩⟩⟩
    · rw [hsp] at hlen; simp at hlen
    · rw [hsp] at hlen; simp at hlen
    · refine ⟨x, y, rfl, ?_⟩
      have hh : handleLine st l =
          .ok ⟨{ st.record with motif := st.record.motif ++ [(x, pySplitWs y)] },
            some kwMOTIF⟩ := by
        unfold handleLine
        rw [hkw]
        dsimp only
        rw [dispatch_motif, hsp]
      rw [processLine_nonterm st l hterm, hh]
    · rw [hsp] at hlen; simp at hlen
  · rfl

/-- Witness for C8 at a concrete MOTIF line with one `": "`. -/
theorem motif_appends_new_pair_witness :
    processLine initState "MOTIF       Pfam: MinE".toList =
      .ok (⟨⟨[], [], [], [], none, [], [("Pfam".toList, ["MinE".toList])], []⟩,
        some kwMOTIF⟩, none) := by
  obtain ⟨k, v, hsp, hp⟩ :=
    motif_appends_new_pair.1 initState "MOTIF       Pfam: MinE".toList
      (by decide) (by rfl) (by decide)
  have hkv : ([k, v] : List Str) = ["Pfam".toList, "MinE".toList] := by
    rw [← hsp]; rfl
  have hk : k = "Pfam".toList := by injection hkv
  have hv : v = "MinE".toList := by
    have := hkv
    injection this with h1 h2
    injection h2
  rw [hk, hv] at hp
  exact hp

/-- C7: `Record.__str__` concatenates exactly the rendered ENTRY block,
then the NAME block, then the DBLINKS block, then `///` with no field
after it; it does not depend on the definition field even though the
DEFINITION renderer exists; and the NAME and DBLINKS blocks are part of
the concatenation for every record, whatever is populated. -/
theorem toText_field_order :
    (∀ r : Record, r.toText = r.entryBlock ++ r.nameBlock ++ r.dblinksBlock ++ "///".toList)
    ∧ (∀ (r : Record) (d : Str),
        Record.toText
          ⟨r.entry, r.name, d, r.orthology, r.organism, r.position, r.motif, r.dblinks⟩ =
          r.toText)
    ∧ (∀ r : Record, r.definitionBlock = writeKegg "DEFINITION".toList [r.definition]) := by
  refine ⟨fun r => rfl, fun r d => ?_, fun r => rfl⟩
  cases r
  rfl
